import Mathlib

/-!
# AI-Voice-Agent: the audio worklet of `static/script.js`

A shallow embedding of the eleven lines of `static/script.js`:

```
class AudioProcessor extends AudioWorkletProcessor {
  process(inputs) {
    const input = inputs[0];
    if (input && input[0]) {
      this.port.postMessage(input[0]);
    }
    return true;
  }
}
registerProcessor("audio-processor", AudioProcessor);
```

JavaScript values are modelled at the types the Web Audio host hands to `process`
(`sequence<sequence<Float32Array>>`), extended with `undefined` at every position an
index expression can produce it.  Samples are never inspected by the code, so the sample
type is a parameter `σ`.  Side effects are explicit: the message port is the list of the
messages posted so far, the processor registry is an association list, and a JavaScript
exception is a value of `Except JsError`.
-/

set_option autoImplicit false

namespace AudioWorklet

/-! ## JavaScript values -/

/-- Exceptions the modelled fragment of JavaScript and of the Web Audio host can throw. -/
inductive JsError where
  /-- Reading a property of `undefined`. -/
  | typeError
  /-- Thrown by `registerProcessor` for an empty or an already registered name. -/
  | notSupportedError
  deriving DecidableEq, Repr

/-- The value of `input[0]`: a `Float32Array` holding the samples of one channel, or
`undefined` when the input has no such channel. -/
inductive Channel (σ : Type) where
  | undefined
  | buffer (samples : List σ)
  deriving DecidableEq, Repr

/-- The value of `inputs[0]`: an array of channels, or `undefined` when the entry is
missing. -/
inductive Input (σ : Type) where
  | undefined
  | channels (items : List (Channel σ))
  deriving DecidableEq, Repr

variable {σ : Type}

/-- ECMAScript `ToBoolean` on a channel value: `undefined` is falsy, every object is truthy.
A `Float32Array` is an object, so it is truthy whatever its length. -/
def Channel.toBoolean : Channel σ → Bool
  | .undefined => false
  | .buffer _ => true

/-- ECMAScript `ToBoolean` on an input value: `undefined` is falsy, an array is truthy,
the empty array included. -/
def Input.toBoolean : Input σ → Bool
  | .undefined => false
  | .channels _ => true

/-- The expression `inputs[i]` on an array: the element, or `undefined` past the end. -/
def inputAt (inputs : List (Input σ)) (i : Nat) : Input σ :=
  inputs.getD i Input.undefined

/-- The expression `input[i]`: reading a property of `undefined` throws a `TypeError`;
on an array it is the element, or `undefined` past the end. -/
def Input.at : Input σ → Nat → Except JsError (Channel σ)
  | .undefined, _ => Except.error JsError.typeError
  | .channels items, i => Except.ok (items.getD i Channel.undefined)

/-! ## The message port -/

/-- The processor's side of its `MessagePort`: the messages posted on it so far, oldest
first. -/
structure MessagePort (σ : Type) where
  posted : List (Channel σ)
  deriving DecidableEq, Repr

/-- The call `port.postMessage(message)`: one more message, after those already posted. -/
def MessagePort.postMessage (port : MessagePort σ) (message : Channel σ) : MessagePort σ :=
  { posted := port.posted ++ [message] }

/-! ## `class AudioProcessor extends AudioWorkletProcessor` -/

/-- An instance of the class. The only member the code touches is `this.port`, inherited
from `AudioWorkletProcessor`; the class declares no field of its own. -/
structure AudioProcessor (σ : Type) where
  port : MessagePort σ
  deriving DecidableEq, Repr

/-- The method `process(inputs)`, lines 2 to 8 of `static/script.js`. The result is the
instance after the call together with the returned value, or the exception thrown. -/
def AudioProcessor.process (self : AudioProcessor σ) (inputs : List (Input σ)) :
    Except JsError (AudioProcessor σ × Bool) := do
  -- const input = inputs[0];
  let input := inputAt inputs 0
  -- if (input && input[0]) : the right operand is evaluated only when the left is truthy
  let test ← if input.toBoolean then (do let c ← input.at 0; pure c.toBoolean) else pure false
  let self ← if test then (do
      -- this.port.postMessage(input[0]);
      let message ← input.at 0
      pure { self with port := self.port.postMessage message })
    else pure self
  -- return true;
  pure (self, true)

/-- The arguments of one call by the host, `process(inputs, outputs, parameters)`. -/
structure CallArgs (σ : Type) where
  inputs : List (Input σ)
  outputs : List (List (List σ))
  parameters : List (String × List σ)

/-- A call by the host. The method declares the single formal parameter `inputs`, so the
second and third arguments are bound to nothing. -/
def AudioProcessor.invoke (self : AudioProcessor σ) (args : CallArgs σ) :
    Except JsError (AudioProcessor σ × Bool) :=
  self.process args.inputs

/-- A finite sequence of calls by the host on one instance, in order; the result is the
instance after the last call and the values returned, in call order. An exception ends
the sequence. -/
def AudioProcessor.run (self : AudioProcessor σ) :
    List (CallArgs σ) → Except JsError (AudioProcessor σ × List Bool)
  | [] => pure (self, [])
  | args :: rest => do
    let (self1, r) ← self.invoke args
    let (self2, rs) ← self1.run rest
    pure (self2, r :: rs)

/-! ## `registerProcessor("audio-processor", AudioProcessor)` -/

/-- A processor class as the registry stores it: what the host needs of it is the
`process` method of its instances. -/
structure ProcessorClass (σ : Type) where
  process : AudioProcessor σ → List (Input σ) → Except JsError (AudioProcessor σ × Bool)

/-- The class declared on lines 1 to 9. -/
def AudioProcessor.klass : ProcessorClass σ :=
  { process := AudioProcessor.process }

/-- The host's global scope: its map from node names to processor classes, in order of
registration. -/
structure AudioWorkletGlobalScope (σ : Type) where
  registry : List (String × ProcessorClass σ)

/-- The class registered under a name, if any. -/
def AudioWorkletGlobalScope.lookup (g : AudioWorkletGlobalScope σ) (name : String) :
    Option (ProcessorClass σ) :=
  g.registry.lookup name

/-- The host function `registerProcessor(name, processorCtor)` of the Web Audio API: an
empty name or a name already in the map throws `NotSupportedError`, otherwise the pair is
added to the map. -/
def AudioWorkletGlobalScope.registerProcessor (name : String) (ctor : ProcessorClass σ)
    (g : AudioWorkletGlobalScope σ) : Except JsError (AudioWorkletGlobalScope σ) :=
  if name = "" then Except.error JsError.notSupportedError
  else if (g.lookup name).isSome then Except.error JsError.notSupportedError
  else Except.ok { registry := g.registry ++ [(name, ctor)] }

/-- Evaluation of the module: the class declaration binds `AudioProcessor` and has no
other effect, then line 11 runs. -/
def loadModule (g : AudioWorkletGlobalScope σ) : Except JsError (AudioWorkletGlobalScope σ) :=
  AudioWorkletGlobalScope.registerProcessor "audio-processor" AudioProcessor.klass g

/-! ## Vocabulary of the specification -/

/-- The first channel buffer of the first input, when there is one: the samples of
`inputs[0][0]`, and `none` when `inputs` is empty, its first entry is missing, the first
input has no channel, or its first channel entry is missing. -/
def firstChannel? : List (Input σ) → Option (List σ)
  | Input.channels (Channel.buffer samples :: _) :: _ => some samples
  | _ => none

/-- The messages one invocation is specified to post: the first channel buffer when there
is one, nothing otherwise. -/
def relayed (inputs : List (Input σ)) : List (Channel σ) :=
  match firstChannel? inputs with
  | some samples => [Channel.buffer samples]
  | none => []

/-! ## What one invocation does -/

/-- Every invocation returns normally with `true`, and the port afterwards holds the
messages it held before followed by the first channel buffer when there is one. -/
theorem process_eq (self : AudioProcessor σ) (inputs : List (Input σ)) :
    self.process inputs
      = Except.ok ({ port := { posted := self.port.posted ++ relayed inputs } }, true) := by
  rcases self with ⟨⟨posted⟩⟩
  match inputs with
  | [] => simp [AudioProcessor.process, inputAt, Input.toBoolean, relayed, firstChannel?, pure,
      Except.pure, bind, Except.bind]
  | Input.undefined :: _ => simp [AudioProcessor.process, inputAt, Input.toBoolean, relayed,
      firstChannel?, pure, Except.pure, bind, Except.bind]
  | Input.channels [] :: _ => simp [AudioProcessor.process, inputAt, Input.toBoolean, Input.at,
      Channel.toBoolean, relayed, firstChannel?, pure, Except.pure, bind, Except.bind]
  | Input.channels (Channel.undefined :: _) :: _ => simp [AudioProcessor.process, inputAt,
      Input.toBoolean, Input.at, Channel.toBoolean, relayed, firstChannel?, pure, Except.pure,
      bind, Except.bind]
  | Input.channels (Channel.buffer b :: _) :: _ => simp [AudioProcessor.process, inputAt,
      Input.toBoolean, Input.at, Channel.toBoolean, relayed, firstChannel?, pure, Except.pure,
      bind, Except.bind, MessagePort.postMessage]

/-- The unguarded read `input[0]` on a missing input throws: the test `input &&` is what
keeps `process` from failing. -/
theorem at_undefined_throws (i : Nat) :
    (Input.undefined : Input σ).at i = Except.error JsError.typeError := rfl

/-- The messages specified for an invocation with a first channel buffer. -/
theorem relayed_of_some {inputs : List (Input σ)} {samples : List σ}
    (h : firstChannel? inputs = some samples) : relayed inputs = [Channel.buffer samples] := by
  simp [relayed, h]

/-- The messages specified for an invocation without a first channel buffer. -/
theorem relayed_of_none {inputs : List (Input σ)} (h : firstChannel? inputs = none) :
    relayed inputs = [] := by
  simp [relayed, h]

/-- A host call is the method call on its first argument. -/
theorem invoke_eq (self : AudioProcessor σ) (args : CallArgs σ) :
    self.invoke args
      = Except.ok ({ port := { posted := self.port.posted ++ relayed args.inputs } }, true) :=
  process_eq self args.inputs

/-- A sequence of host calls never throws; the port afterwards holds what it held before
followed by what each call relays, in call order, and every call returns `true`. -/
theorem run_eq (calls : List (CallArgs σ)) : ∀ self : AudioProcessor σ,
    self.run calls
      = Except.ok
          ({ port := { posted := self.port.posted
              ++ (calls.filterMap fun args => firstChannel? args.inputs).map Channel.buffer } },
            calls.map fun _ => true) := by
  induction calls with
  | nil => intro self; simp [AudioProcessor.run, pure, Except.pure]
  | cons args rest ih =>
    intro self
    simp only [AudioProcessor.run, invoke_eq, ih, bind, Except.bind, pure, Except.pure,
      List.map_cons, List.filterMap_cons]
    cases h : firstChannel? args.inputs with
    | none => simp [relayed, h]
    | some samples => simp [relayed, h]

/-- Registering a fresh, non-empty name adds the pair at the end of the map. -/
theorem lookup_append_single (registry : List (String × ProcessorClass σ)) (key name : String)
    (ctor : ProcessorClass σ) (h : name ≠ key) :
    (registry ++ [(key, ctor)]).lookup name = registry.lookup name := by
  have hne : (name == key) = false := by simpa using h
  rw [List.lookup_append]
  simp [List.lookup, hne]

/-! ## The claims -/

/-- C1: when the first input has a first channel buffer that is non-empty, the invocation
posts exactly one message, after those the port already held, and its payload is that
buffer: the same samples in the same order. The other channels and inputs play no part. -/
theorem process_posts_first_channel (self : AudioProcessor σ) (samples : List σ)
    (others : List (Channel σ)) (later : List (Input σ)) (hne : samples ≠ []) :
    self.process (Input.channels (Channel.buffer samples :: others) :: later)
      = Except.ok
          ({ port := { posted := self.port.posted ++ [Channel.buffer samples] } }, true) := by
  have _ := hne
  rw [process_eq]
  rfl

/-- C1 at the scenario of the specification: `inputs = [[[0.1, 0.2, 0.3]]]` on a port
without messages posts the single payload `[0.1, 0.2, 0.3]`. -/
theorem process_posts_first_channel_witness :
    ([0.1, 0.2, 0.3] : List Float) ≠ []
      ∧ AudioProcessor.process { port := { posted := [] } }
          [Input.channels [Channel.buffer ([0.1, 0.2, 0.3] : List Float)]]
        = Except.ok ({ port := { posted := [Channel.buffer [0.1, 0.2, 0.3]] } }, true) :=
  ⟨List.cons_ne_nil _ _,
    process_posts_first_channel { port := { posted := [] } } [0.1, 0.2, 0.3] [] []
      (List.cons_ne_nil _ _)⟩

/-- C2: when the first channel is absent because `inputs` is empty or because its first
input has no channels, whatever inputs follow it, the invocation posts nothing: the port
is left as it was. -/
theorem process_no_message_without_first_channel (self : AudioProcessor σ)
    (inputs : List (Input σ))
    (h : inputs = [] ∨ ∃ later : List (Input σ), inputs = Input.channels [] :: later) :
    self.process inputs = Except.ok (self, true) := by
  rw [process_eq]
  rcases h with h | ⟨later, h⟩ <;> subst h <;> simp [relayed, firstChannel?]

/-- C2 at the scenario of the specification: `inputs = [[]]`, on a port that already
holds a message. -/
theorem process_no_message_without_first_channel_witness :
    (([Input.channels []] : List (Input Float)) = []
        ∨ ∃ later : List (Input Float), [Input.channels []] = Input.channels [] :: later)
      ∧ AudioProcessor.process { port := { posted := [Channel.buffer [0.5]] } }
          ([Input.channels []] : List (Input Float))
        = Except.ok ({ port := { posted := [Channel.buffer [0.5]] } }, true) :=
  ⟨Or.inr ⟨[], rfl⟩,
    process_no_message_without_first_channel { port := { posted := [Channel.buffer [0.5]] } }
      [Input.channels []] (Or.inr ⟨[], rfl⟩)⟩

/-- C3, as stated, fails: on `inputs = [[new Float32Array(0)]]` the first channel buffer is
present with zero samples, the test `input && input[0]` is truthy because a typed array is
an object, and the invocation posts that empty buffer: afterwards the port holds one
message where the claim says none. -/
theorem process_posts_empty_buffer :
    AudioProcessor.process ({ port := { posted := [] } } : AudioProcessor Float)
        [Input.channels [Channel.buffer []]]
      = Except.ok ({ port := { posted := [Channel.buffer []] } }, true)
    ∧ AudioProcessor.process ({ port := { posted := [] } } : AudioProcessor Float)
        [Input.channels [Channel.buffer []]]
      ≠ Except.ok ({ port := { posted := [] } }, true) := by
  constructor
  · rfl
  · rw [process_eq]
    simp [relayed, firstChannel?]

/-- C3, amended: every invocation returns normally, and it posts a message exactly when the
first channel buffer of the first input is present, whatever its length, zero included; the
message is that buffer. When no first channel buffer is present the instance is left as it
was. -/
theorem process_posts_iff_first_channel_present (self : AudioProcessor σ)
    (inputs : List (Input σ)) :
    ∃ after : AudioProcessor σ, self.process inputs = Except.ok (after, true)
      ∧ ((∃ samples : List σ, firstChannel? inputs = some samples
            ∧ after.port.posted = self.port.posted ++ [Channel.buffer samples])
          ∨ (firstChannel? inputs = none ∧ after = self)) := by
  refine ⟨_, process_eq self inputs, ?_⟩
  cases h : firstChannel? inputs with
  | none => exact Or.inr ⟨rfl, by simp [relayed_of_none h]⟩
  | some samples => exact Or.inl ⟨samples, rfl, by simp [relayed_of_some h]⟩

/-- C4: for every `inputs` the method returns `true`, whether or not a message was posted,
and so does a host call with any `outputs` and `parameters`; no call returns another
value. -/
theorem process_returns_true (self : AudioProcessor σ) (inputs : List (Input σ)) :
    (∃ after : AudioProcessor σ, self.process inputs = Except.ok (after, true))
      ∧ (∀ (outputs : List (List (List σ))) (parameters : List (String × List σ)),
          ∃ after : AudioProcessor σ,
            self.invoke { inputs := inputs, outputs := outputs, parameters := parameters }
              = Except.ok (after, true))
      ∧ ∀ (after : AudioProcessor σ) (value : Bool),
          self.process inputs = Except.ok (after, value) → value = true := by
  refine ⟨⟨_, process_eq self inputs⟩, fun _ _ => ⟨_, invoke_eq self _⟩, ?_⟩
  intro after value h
  rw [process_eq] at h
  injection h with h
  injection h with _ h
  exact h.symm

/-- C5: no `inputs` made of arrays of channel buffers and missing entries makes the method
throw: it always completes and returns. A missing first input, `inputs` empty or its first
entry `undefined`, takes the branch that posts nothing and returns `true`. -/
theorem process_never_throws (self : AudioProcessor σ) (inputs later : List (Input σ)) :
    (∃ result : AudioProcessor σ × Bool, self.process inputs = Except.ok result)
      ∧ (∀ e : JsError, self.process inputs ≠ Except.error e)
      ∧ self.process [] = Except.ok (self, true)
      ∧ self.process (Input.undefined :: later) = Except.ok (self, true) := by
  refine ⟨⟨_, process_eq self inputs⟩, ?_, ?_, ?_⟩
  · intro e h
    rw [process_eq] at h
    cases h
  · rw [process_eq]; simp [relayed, firstChannel?]
  · rw [process_eq]; simp [relayed, firstChannel?]

/-- C6, as stated, fails: the claim names no condition on the registry the module is loaded
into. In a global scope where `"audio-processor"` is already registered, as after a first
load of the same module, `registerProcessor` throws `NotSupportedError`: loading performs
no registration and yields no registry at all. -/
theorem loadModule_throws_when_name_taken :
    loadModule
        ({ registry := [("audio-processor", AudioProcessor.klass)] }
          : AudioWorkletGlobalScope Float)
      = Except.error JsError.notSupportedError
    ∧ ¬ ∃ loaded : AudioWorkletGlobalScope Float,
        loadModule
            ({ registry := [("audio-processor", AudioProcessor.klass)] }
              : AudioWorkletGlobalScope Float)
          = Except.ok loaded := by
  have hthrows : loadModule
        ({ registry := [("audio-processor", AudioProcessor.klass)] }
          : AudioWorkletGlobalScope Float)
      = Except.error JsError.notSupportedError := by
    simp [loadModule, AudioWorkletGlobalScope.registerProcessor,
      AudioWorkletGlobalScope.lookup, List.lookup]
  refine ⟨hthrows, ?_⟩
  rintro ⟨loaded, hloaded⟩
  rw [hthrows] at hloaded
  cases hloaded

/-- C6, amended: in a global scope where the name `"audio-processor"` is free, loading the
module succeeds and performs exactly one registration: the map gains the single pair of
`"audio-processor"` and the class `AudioProcessor`, looking that name up afterwards yields
`AudioProcessor`, and every other name resolves as it did before the module was loaded. -/
theorem loadModule_registers_audio_processor (g : AudioWorkletGlobalScope σ)
    (hfree : g.lookup "audio-processor" = none) :
    ∃ loaded : AudioWorkletGlobalScope σ, loadModule g = Except.ok loaded
      ∧ loaded.registry = g.registry ++ [("audio-processor", AudioProcessor.klass)]
      ∧ loaded.lookup "audio-processor" = some AudioProcessor.klass
      ∧ ∀ name : String, name ≠ "audio-processor" → loaded.lookup name = g.lookup name := by
  refine ⟨{ registry := g.registry ++ [("audio-processor", AudioProcessor.klass)] },
    ?_, rfl, ?_, ?_⟩
  · simp [loadModule, AudioWorkletGlobalScope.registerProcessor, hfree]
  · have h : g.registry.lookup "audio-processor" = none := hfree
    simp [AudioWorkletGlobalScope.lookup, List.lookup_append, h, List.lookup]
  · intro name hname
    exact lookup_append_single g.registry "audio-processor" name AudioProcessor.klass hname

/-- C6, amended, in a fresh global scope: after loading, the map is the single pair of
`"audio-processor"` and `AudioProcessor`, so no other name is registered. -/
theorem loadModule_registers_audio_processor_witness :
    AudioWorkletGlobalScope.lookup ({ registry := [] } : AudioWorkletGlobalScope Float)
        "audio-processor" = none
      ∧ ∃ loaded : AudioWorkletGlobalScope Float,
          loadModule { registry := [] } = Except.ok loaded
          ∧ loaded.registry = [] ++ [("audio-processor", AudioProcessor.klass)]
          ∧ loaded.lookup "audio-processor" = some AudioProcessor.klass
          ∧ ∀ name : String, name ≠ "audio-processor" →
              loaded.lookup name
                = AudioWorkletGlobalScope.lookup
                    ({ registry := [] } : AudioWorkletGlobalScope Float) name :=
  ⟨rfl, loadModule_registers_audio_processor { registry := [] } rfl⟩

/-- C7: the instance carries nothing from one invocation to the next but the port. After
any finite sequence of host calls the port holds what it held before followed by the first
channel buffer of each call that has one, once each and in call order, and every call
returned `true`; and from any two states of the instance one call posts the same messages
and returns the same value, the messages being those of its own `inputs`. -/
theorem run_posts_first_channels_in_order (self other : AudioProcessor σ)
    (calls : List (CallArgs σ)) (args : CallArgs σ) :
    self.run calls
        = Except.ok
            ({ port := { posted := self.port.posted
                ++ (calls.filterMap fun a => firstChannel? a.inputs).map Channel.buffer } },
              calls.map fun _ => true)
      ∧ self.invoke args
          = Except.ok ({ port := { posted := self.port.posted ++ relayed args.inputs } }, true)
      ∧ other.invoke args
          = Except.ok ({ port := { posted := other.port.posted ++ relayed args.inputs } }, true) :=
  ⟨run_eq calls self, invoke_eq self args, invoke_eq other args⟩

/-- C8: any two host calls whose `inputs` agree on the first channel of the first input,
both without one or both with the same buffer, post the same messages and return the same
value, from whatever states of the instance they are made and however they differ in the
other channels, the later inputs, `outputs` and `parameters`. What each call posts is
exactly the first channel buffer of its own first input when there is one and nothing
otherwise, so no sample of another channel or input reaches the port. -/
theorem invoke_depends_only_on_first_channel (self other : AudioProcessor σ)
    (a b : CallArgs σ) (h : firstChannel? a.inputs = firstChannel? b.inputs) :
    ∃ fresh : List (Channel σ),
      self.invoke a
          = Except.ok ({ port := { posted := self.port.posted ++ fresh } }, true)
      ∧ other.invoke b
          = Except.ok ({ port := { posted := other.port.posted ++ fresh } }, true)
      ∧ self.invoke a = self.invoke b
      ∧ fresh = (firstChannel? a.inputs).toList.map Channel.buffer
      ∧ ∀ message ∈ fresh, ∃ samples : List σ,
          message = Channel.buffer samples ∧ firstChannel? a.inputs = some samples := by
  have hrel : relayed b.inputs = relayed a.inputs := by simp [relayed, h]
  refine ⟨relayed a.inputs, invoke_eq self a, ?_, ?_, ?_, ?_⟩
  · rw [invoke_eq, hrel]
  · rw [invoke_eq, invoke_eq, hrel]
  · cases hfirst : firstChannel? a.inputs with
    | none => simp [relayed_of_none hfirst]
    | some samples => simp [relayed_of_some hfirst]
  · intro message hmem
    cases hfirst : firstChannel? a.inputs with
    | none => simp [relayed_of_none hfirst] at hmem
    | some samples =>
      rw [relayed_of_some hfirst] at hmem
      exact ⟨samples, by simpa using hmem, rfl⟩

/-- C8 at two calls that share the first channel `[0.1, 0.2]` and differ in everything
else: a second channel and a second input on one side, made on a port without messages;
`outputs`, `parameters` and a port that already holds a message on the other. Both post
the single message `[0.1, 0.2]` and return `true`. -/
theorem invoke_depends_only_on_first_channel_witness :
    firstChannel?
        (CallArgs.inputs
          ({ inputs := [Input.channels [Channel.buffer [0.1, 0.2], Channel.buffer [0.9]],
                        Input.channels [Channel.buffer [0.7]]],
             outputs := [], parameters := [] } : CallArgs Float))
      = firstChannel?
          (CallArgs.inputs
            ({ inputs := [Input.channels [Channel.buffer [0.1, 0.2]]],
               outputs := [[[0.0]]], parameters := [("gain", [1.0])] } : CallArgs Float))
    ∧ ∃ fresh : List (Channel Float),
        AudioProcessor.invoke { port := { posted := [] } }
            ({ inputs := [Input.channels [Channel.buffer [0.1, 0.2], Channel.buffer [0.9]],
                          Input.channels [Channel.buffer [0.7]]],
               outputs := [], parameters := [] } : CallArgs Float)
          = Except.ok ({ port := { posted := [] ++ fresh } }, true)
        ∧ AudioProcessor.invoke { port := { posted := [Channel.buffer [0.5]] } }
            ({ inputs := [Input.channels [Channel.buffer [0.1, 0.2]]],
               outputs := [[[0.0]]], parameters := [("gain", [1.0])] } : CallArgs Float)
          = Except.ok ({ port := { posted := [Channel.buffer [0.5]] ++ fresh } }, true)
        ∧ fresh = [Channel.buffer [0.1, 0.2]] :=
  ⟨rfl,
    match invoke_depends_only_on_first_channel
      ({ port := { posted := [] } } : AudioProcessor Float)
      { port := { posted := [Channel.buffer [0.5]] } }
      { inputs := [Input.channels [Channel.buffer [0.1, 0.2], Channel.buffer [0.9]],
                   Input.channels [Channel.buffer [0.7]]],
        outputs := [], parameters := [] }
      { inputs := [Input.channels [Channel.buffer [0.1, 0.2]]],
        outputs := [[[0.0]]], parameters := [("gain", [1.0])] } rfl with
    | ⟨fresh, hself, hother, _, hfresh, _⟩ => ⟨fresh, hself, hother, hfresh⟩⟩

end AudioWorklet
